import Mathlib

set_option linter.unusedVariables false

/-!
Verification of the senate-insight suspicion-scoring engine
(`senate_insight/analyzers/insider_trading_detector.py` plus the data
models it consumes from `senate_insight/models/`).

Embedding conventions:
* calendar dates (`datetime.date`) are day numbers in `ℤ`; `timedelta(days = n)`
  is integer addition;
* `datetime` values carry only the day component actually consumed by the
  detector (`.date()`);
* `Decimal` prices are exact rationals `ℚ`; float scores and float
  arithmetic are idealised as exact rational arithmetic (all score
  constants are dyadic/decimal rationals far from any float rounding
  boundary);
* the wall clock read by `datetime.now()` is an explicit `now : ℤ`
  parameter, fixed for one call of the analyzer;
* the one fallible operation (`Decimal` division, which raises on a zero
  divisor) is modelled with `Except Unit`; a raised exception aborts the
  whole analyzer call, as in Python.
-/

namespace SenateInsight

/-- Day-precision timestamp for `LegislativeAction.action_date`
(Python `datetime`); the detector only ever consumes `.date()`,
modelled as the `day` field. -/
structure PyDateTime where
  day : ℤ
  deriving DecidableEq

/-- `models/congress_member.py`: `CongressMember`. -/
structure CongressMember where
  member_id : String
  name : String
  chamber : String
  state : String
  district : Option String := none
  party : String
  start_date : ℤ
  end_date : Option ℤ := none
  committees : List String := []
  leadership_positions : List String := []
  deriving DecidableEq

/-- `models/congress_member.py`: `CommitteeAssignment`. -/
structure CommitteeAssignment where
  member_id : String
  committee_name : String
  committee_code : String
  role : String := "Member"
  start_date : ℤ
  end_date : Option ℤ := none
  subcommittees : List String := []
  deriving DecidableEq

/-- `models/congress_member.py`: `LegislativeAction`. -/
structure LegislativeAction where
  action_id : String
  member_id : String
  action_type : String
  bill_id : String
  bill_title : String
  action_date : PyDateTime
  position : Option String := none
  industries_affected : List String := []
  deriving DecidableEq

/-- `models/financial_disclosure.py`: `StockTransaction`. -/
structure StockTransaction where
  transaction_id : String
  member_id : String
  ticker : String
  company_name : String
  transaction_type : String
  transaction_date : ℤ
  disclosure_date : ℤ
  amount_range : String
  min_amount : Option ℚ := none
  max_amount : Option ℚ := none
  asset_type : String := "Stock"
  owner : String
  deriving DecidableEq

/-- `models/financial_disclosure.py`: `StockPrice`. -/
structure StockPrice where
  ticker : String
  price_date : ℤ
  open_price : ℚ
  close_price : ℚ
  high_price : ℚ
  low_price : ℚ
  volume : ℤ
  deriving DecidableEq

/-- `models/financial_disclosure.py`: `InsiderTradingAlert`;
`created_at` (default `datetime.now()`) is the injected clock value. -/
structure InsiderTradingAlert where
  alert_id : String
  member_id : String
  transaction_id : String
  alert_type : String
  confidence_score : ℚ
  description : String
  legislative_actions : List String := []
  price_movement_days : ℤ
  price_change_percent : Option ℚ := none
  created_at : ℤ
  deriving DecidableEq

/-- `insider_trading_detector.py`: `AnalysisMetrics` dataclass. -/
structure AnalysisMetrics where
  timing_score : ℚ := 0
  committee_correlation_score : ℚ := 0
  price_movement_score : ℚ := 0
  volume_anomaly_score : ℚ := 0
  overall_suspicion_score : ℚ := 0
  deriving DecidableEq

/-- `InsiderTradingDetector.__init__`: the detector holds only this
configuration, never per-call state. -/
structure InsiderTradingDetector where
  timing_window_days : ℤ := 30
  significant_price_change : ℚ := 5/100
  min_confidence_threshold : ℚ := 3/10
  deriving DecidableEq

/-- `InsiderTradingDetector()` with all defaults. -/
def defaultDetector : InsiderTradingDetector := {}

instance {ε α : Type _} [DecidableEq ε] [DecidableEq α] : DecidableEq (Except ε α) :=
  fun a b =>
    match a, b with
    | .error e, .error f =>
      if h : e = f then isTrue (by rw [h])
      else isFalse (fun hh => h (by injection hh))
    | .error e, .ok y => isFalse (fun hh => Except.noConfusion hh)
    | .ok x, .error f => isFalse (fun hh => Except.noConfusion hh)
    | .ok x, .ok y =>
      if h : x = y then isTrue (by rw [h])
      else isFalse (fun hh => h (by injection hh))

/-- Python `str.lower` (ASCII), over the character list. -/
def strLower (s : String) : String :=
  String.mk (s.data.map Char.toLower)

/-- Python substring containment `sub in hay` (contiguous substring). -/
def strContains (hay sub : String) : Bool :=
  decide (sub.data <:+: hay.data)

/-- Helper for `pySplit`: accumulates the current word (reversed). -/
def splitWordsAux : List Char → List Char → List (List Char)
  | [], acc => if acc = [] then [] else [acc.reverse]
  | c :: cs, acc =>
    if c.isWhitespace then
      if acc = [] then splitWordsAux cs []
      else acc.reverse :: splitWordsAux cs []
    else splitWordsAux cs (c :: acc)

/-- Python `str.split()` on whitespace, dropping empty chunks. -/
def pySplit (s : String) : List String :=
  (splitWordsAux s.data []).map String.mk

/-- Python `" ".join(l)`. -/
def joinSpace : List String → String
  | [] => ""
  | [s] => s
  | s :: rest => s ++ " " ++ joinSpace rest

/-- Python `max` over a list of rationals; call sites guard non-emptiness
(the `[]` default is never consumed by the detector). -/
def listMax : List ℚ → ℚ
  | [] => 0
  | x :: xs => xs.foldl max x

/-- Python `min` over a list of rationals; call sites guard non-emptiness. -/
def listMin : List ℚ → ℚ
  | [] => 0
  | x :: xs => xs.foldl min x

/-- `statistics.mean` (call sites guard non-emptiness). -/
def pyMean (l : List ℚ) : ℚ := l.sum / (l.length : ℚ)

/-- The sample variance `Σ (x - mean)² / (n - 1)`;
`statistics.stdev` is its (real) square root. Call sites guard `n > 1`. -/
def sampleVariance (l : List ℚ) : ℚ :=
  ((l.map (fun x => (x - pyMean l) ^ 2)).sum) / ((l.length : ℚ) - 1)

/-- The price mapping `stock_prices : Dict[str, List[StockPrice]]` as an
association list; `dictGet m k` is Python `m.get(k, [])`. -/
def dictGet (m : List (String × List StockPrice)) (k : String) : List StockPrice :=
  match m.lookup k with
  | some v => v
  | none => []

/-- `_get_price_on_date`: first bar whose date equals `target_date`. -/
def getPriceOnDate (stock_prices : List StockPrice) (target_date : ℤ) : Option StockPrice :=
  stock_prices.find? (fun p => p.price_date == target_date)

/-- `_is_action_relevant_to_stock`. -/
def isActionRelevantToStock (action : LegislativeAction) (ticker company_name : String) : Bool :=
  let action_text := strLower (action.bill_title ++ " " ++
    joinSpace action.industries_affected)
  let company_lower := strLower company_name
  let ticker_lower := strLower ticker
  strContains action_text ticker_lower ||
    ((pySplit company_lower).filter (fun w => 3 < w.length)).any
      (fun w => strContains action_text w)

/-- The legislative actions inside the symmetric timing window that are
relevant to the transaction (`relevant_actions` in `_calculate_timing_score`). -/
def relevantActions (det : InsiderTradingDetector) (t : StockTransaction)
    (legislative_actions : List LegislativeAction) : List LegislativeAction :=
  legislative_actions.filter (fun a =>
    decide (t.transaction_date - det.timing_window_days ≤ a.action_date.day ∧
            a.action_date.day ≤ t.transaction_date + det.timing_window_days) &&
    isActionRelevantToStock a t.ticker t.company_name)

/-- `_calculate_timing_score`. The `stock_prices` parameter is accepted but
unused, as in the source. -/
def calculateTimingScore (det : InsiderTradingDetector) (t : StockTransaction)
    (legislative_actions : List LegislativeAction)
    (stock_prices : List StockPrice) : ℚ :=
  let score := (relevantActions det t legislative_actions).foldl
    (fun score a =>
      let days_difference := a.action_date.day - t.transaction_date
      if 0 ≤ days_difference ∧ days_difference ≤ 14 then score + 4/5
      else if -7 ≤ days_difference ∧ days_difference < 0 then score + 2/5
      else if 15 ≤ days_difference ∧ days_difference ≤ 30 then score + 1/2
      else score) 0
  min score 1

/-- `committee_industry_map` from `_calculate_committee_correlation`. -/
def committee_industry_map : List (String × List String) :=
  [("banking", ["financial", "bank", "insurance", "credit"]),
   ("energy", ["oil", "gas", "energy", "utility", "solar", "wind"]),
   ("technology", ["tech", "software", "internet", "telecommunications"]),
   ("healthcare", ["pharma", "biotech", "medical", "hospital"]),
   ("defense", ["defense", "aerospace", "military"]),
   ("agriculture", ["agriculture", "food", "farming"]),
   ("transportation", ["airline", "automotive", "railroad", "shipping"])]

/-- `_calculate_committee_correlation`. -/
def calculateCommitteeCorrelation (t : StockTransaction)
    (committee_assignments : List CommitteeAssignment) : ℚ :=
  let company_lower := strLower t.company_name
  let stock_industries := (committee_industry_map.filter (fun p =>
    p.2.any (fun keyword => strContains company_lower keyword))).map (fun p => p.1)
  if stock_industries = [] then 0
  else
    let member_committees := committee_assignments.map
      (fun assignment => strLower assignment.committee_name)
    if stock_industries.any (fun industry =>
        member_committees.any (fun committee => strContains committee industry)) then
      7/10
    else 0

/-- `Decimal` division: Python raises `decimal.DivisionByZero` /
`InvalidOperation` on a zero divisor. -/
def pyDecimalDiv (a b : ℚ) : Except Unit ℚ :=
  if b = 0 then .error () else .ok (a / b)

/-- `future_prices` in `_calculate_price_movement_score`: bars strictly
after the transaction date through 30 days after, inclusive. -/
def futurePrices (t : StockTransaction) (stock_prices : List StockPrice) : List StockPrice :=
  stock_prices.filter (fun p =>
    decide (t.transaction_date < p.price_date ∧
            p.price_date ≤ t.transaction_date + 30))

/-- The fractional favorable price change computed by
`_calculate_price_movement_score`; `none` when the transaction-day bar is
missing or the future window is empty (the guarded early-return-0 paths). -/
def favorableChange (t : StockTransaction) (stock_prices : List StockPrice) :
    Option (Except Unit ℚ) :=
  match getPriceOnDate stock_prices t.transaction_date with
  | none => none
  | some transaction_price =>
    let future := futurePrices t stock_prices
    if future = [] then none
    else if strLower t.transaction_type = "buy" ∨ strLower t.transaction_type = "purchase" then
      some (pyDecimalDiv
        (listMax (future.map (fun p => p.close_price)) - transaction_price.close_price)
        transaction_price.close_price)
    else
      some (pyDecimalDiv
        (transaction_price.close_price - listMin (future.map (fun p => p.close_price)))
        transaction_price.close_price)

/-- `_calculate_price_movement_score`. -/
def calculatePriceMovementScore (t : StockTransaction)
    (stock_prices : List StockPrice) : Except Unit ℚ :=
  match favorableChange t stock_prices with
  | none => .ok 0
  | some (.error e) => .error e
  | some (.ok price_change) =>
    .ok (if 1/5 ≤ price_change then 1
         else if 1/10 ≤ price_change then 7/10
         else if 1/20 ≤ price_change then 2/5
         else 0)

/-- `baseline_prices` in `_calculate_volume_anomaly_score`: bars strictly
more than 7 and at most 37 days before the transaction date. -/
def baselinePrices (t : StockTransaction) (stock_prices : List StockPrice) : List StockPrice :=
  stock_prices.filter (fun p =>
    decide (p.price_date < t.transaction_date - 7 ∧
            t.transaction_date - 37 ≤ p.price_date))

/-- `z ≥ k` for the volume z-score `z = d / max (√v) 1` (with `1 ≤ k`,
`0 ≤ v`), expressed by rational comparisons so the detector stays
executable; `zAtLeast_iff_le_zScore` below certifies the reading. -/
def zAtLeast (k d v : ℚ) : Prop := k ≤ d ∧ k ^ 2 * v ≤ d ^ 2

instance (k d v : ℚ) : Decidable (zAtLeast k d v) :=
  inferInstanceAs (Decidable (_ ∧ _))

/-- `_calculate_volume_anomaly_score`. When more than one baseline point
exists the standard deviation is `√(sampleVariance)`, and the three
z-score brackets are expressed through `zAtLeast`; with exactly one
baseline point the standard deviation is the rational `avg * 0.2` and the
z-score is computed directly. -/
def calculateVolumeAnomalyScore (t : StockTransaction)
    (stock_prices : List StockPrice) : ℚ :=
  let baseline_prices := baselinePrices t stock_prices
  match getPriceOnDate stock_prices t.transaction_date with
  | none => 0
  | some transaction_day_price =>
    if baseline_prices = [] then 0
    else
      let baseline_volumes := baseline_prices.map (fun p => (p.volume : ℚ))
      let avg_volume := pyMean baseline_volumes
      let d := (transaction_day_price.volume : ℚ) - avg_volume
      if 1 < baseline_volumes.length then
        let v := sampleVariance baseline_volumes
        if zAtLeast 3 d v then 4/5
        else if zAtLeast 2 d v then 1/2
        else if zAtLeast 1 d v then 1/5
        else 0
      else
        let volume_std := avg_volume * (1/5)
        let volume_z_score := d / max volume_std 1
        if 3 ≤ volume_z_score then 4/5
        else if 2 ≤ volume_z_score then 1/2
        else if 1 ≤ volume_z_score then 1/5
        else 0

/-- `_analyze_transaction`: the four sub-scores and their weighted
combination (timing 0.3, committee 0.25, price movement 0.35, volume 0.1). -/
def analyzeTransaction (det : InsiderTradingDetector) (t : StockTransaction)
    (member : CongressMember) (legislative_actions : List LegislativeAction)
    (committee_assignments : List CommitteeAssignment)
    (stock_prices : List StockPrice) : Except Unit AnalysisMetrics :=
  let timing_score := calculateTimingScore det t legislative_actions stock_prices
  let committee_correlation_score :=
    calculateCommitteeCorrelation t committee_assignments
  match calculatePriceMovementScore t stock_prices with
  | .error e => .error e
  | .ok price_movement_score =>
    let volume_anomaly_score := calculateVolumeAnomalyScore t stock_prices
    .ok { timing_score := timing_score,
          committee_correlation_score := committee_correlation_score,
          price_movement_score := price_movement_score,
          volume_anomaly_score := volume_anomaly_score,
          overall_suspicion_score :=
            timing_score * (3/10) + committee_correlation_score * (1/4) +
            price_movement_score * (7/20) + volume_anomaly_score * (1/10) }

/-- Two-decimal rendering of the score in hundredths
(Python `f"{score:.2f}"`; the tie-breaking of binary-float formatting is
abstracted, which no score constant of the detector exercises). -/
def fmtScore2 (q : ℚ) : String := toString (round (q * 100) : ℤ)

/-- `_create_alert`. `now` is the wall-clock reading
(`datetime.now()`), used in the alert id and `created_at`. -/
def createAlert (t : StockTransaction) (member : CongressMember)
    (metrics : AnalysisMetrics) (now : ℤ) : InsiderTradingAlert :=
  let alert_type :=
    if 1/2 < metrics.committee_correlation_score then "committee_correlation"
    else "timing_correlation"
  let description :=
    "Potential insider trading detected: " ++ member.name ++ " " ++
    strLower t.transaction_type ++ "ed " ++ t.ticker ++ " on " ++
    toString t.transaction_date ++ " with suspicion score " ++
    fmtScore2 metrics.overall_suspicion_score
  { alert_id := "alert_" ++ t.transaction_id ++ "_" ++ toString now,
    member_id := member.member_id,
    transaction_id := t.transaction_id,
    alert_type := alert_type,
    confidence_score := metrics.overall_suspicion_score,
    description := description,
    price_movement_days := 30,
    created_at := now }

/-- `analyze_member_activity`: score each transaction, skip tickers with
no price data, emit an alert when the suspicion score reaches the
threshold; a raised exception aborts the whole call. -/
def analyzeMemberActivity (det : InsiderTradingDetector) (member : CongressMember)
    (transactions : List StockTransaction)
    (legislative_actions : List LegislativeAction)
    (committee_assignments : List CommitteeAssignment)
    (stock_prices : List (String × List StockPrice)) (now : ℤ) :
    Except Unit (List InsiderTradingAlert) :=
  match transactions with
  | [] => .ok []
  | t :: rest =>
    let prices := dictGet stock_prices t.ticker
    if prices = [] then
      analyzeMemberActivity det member rest legislative_actions
        committee_assignments stock_prices now
    else
      match analyzeTransaction det t member legislative_actions
        committee_assignments prices with
      | .error e => .error e
      | .ok metrics =>
        match analyzeMemberActivity det member rest legislative_actions
          committee_assignments stock_prices now with
        | .error e => .error e
        | .ok alerts =>
          .ok (if det.min_confidence_threshold ≤ metrics.overall_suspicion_score then
                 createAlert t member metrics now :: alerts
               else alerts)

/-! ### Helper lemmas about the sub-scores -/

/-- The bracket contribution of one relevant action to the timing score:
0.8 for a signed day difference in [0, 14], 0.4 for [-7, 0), 0.5 for
[15, 30], and 0 otherwise. -/
def timingContribution (t : StockTransaction) (a : LegislativeAction) : ℚ :=
  if 0 ≤ a.action_date.day - t.transaction_date ∧
     a.action_date.day - t.transaction_date ≤ 14 then 4/5
  else if -7 ≤ a.action_date.day - t.transaction_date ∧
          a.action_date.day - t.transaction_date < 0 then 2/5
  else if 15 ≤ a.action_date.day - t.transaction_date ∧
          a.action_date.day - t.transaction_date ≤ 30 then 1/2
  else 0

lemma timing_foldl_eq (t : StockTransaction) (l : List LegislativeAction) :
    ∀ init : ℚ,
      l.foldl (fun score a =>
        let days_difference := a.action_date.day - t.transaction_date
        if 0 ≤ days_difference ∧ days_difference ≤ 14 then score + 4/5
        else if -7 ≤ days_difference ∧ days_difference < 0 then score + 2/5
        else if 15 ≤ days_difference ∧ days_difference ≤ 30 then score + 1/2
        else score) init = init + (l.map (timingContribution t)).sum := by
  induction l with
  | nil => intro init; simp
  | cons a l ih =>
    intro init
    simp only [List.foldl_cons, List.map_cons, List.sum_cons, ih]
    unfold timingContribution
    split_ifs <;> ring

lemma calculateTimingScore_eq (det : InsiderTradingDetector) (t : StockTransaction)
    (acts : List LegislativeAction) (ps : List StockPrice) :
    calculateTimingScore det t acts ps =
      min ((relevantActions det t acts).map (timingContribution t)).sum 1 := by
  unfold calculateTimingScore
  rw [timing_foldl_eq]
  simp

lemma timingContribution_nonneg (t : StockTransaction) (a : LegislativeAction) :
    0 ≤ timingContribution t a := by
  unfold timingContribution
  split_ifs <;> norm_num

lemma calculateTimingScore_nonneg (det : InsiderTradingDetector) (t : StockTransaction)
    (acts : List LegislativeAction) (ps : List StockPrice) :
    0 ≤ calculateTimingScore det t acts ps := by
  rw [calculateTimingScore_eq]
  refine le_min ?_ (by norm_num)
  exact List.sum_nonneg (fun x hx => by
    obtain ⟨a, _, rfl⟩ := List.mem_map.mp hx
    exact timingContribution_nonneg t a)

lemma calculateTimingScore_le_one (det : InsiderTradingDetector) (t : StockTransaction)
    (acts : List LegislativeAction) (ps : List StockPrice) :
    calculateTimingScore det t acts ps ≤ 1 := by
  rw [calculateTimingScore_eq]
  exact min_le_right _ _

lemma calculateCommitteeCorrelation_cases (t : StockTransaction)
    (cas : List CommitteeAssignment) :
    calculateCommitteeCorrelation t cas = 0 ∨
      calculateCommitteeCorrelation t cas = 7/10 := by
  unfold calculateCommitteeCorrelation
  dsimp only
  split_ifs <;> simp

lemma calculatePriceMovementScore_cases (t : StockTransaction)
    (ps : List StockPrice) (q : ℚ)
    (h : calculatePriceMovementScore t ps = .ok q) :
    q = 0 ∨ q = 2/5 ∨ q = 7/10 ∨ q = 1 := by
  unfold calculatePriceMovementScore at h
  rcases hc : favorableChange t ps with _ | e
  · rw [hc] at h
    injection h with h
    exact Or.inl h.symm
  · rcases e with e | c
    · rw [hc] at h; exact absurd h (by simp)
    · rw [hc] at h
      injection h with h
      subst h
      split_ifs <;> tauto

lemma calculateVolumeAnomalyScore_cases (t : StockTransaction)
    (ps : List StockPrice) :
    calculateVolumeAnomalyScore t ps = 0 ∨
      calculateVolumeAnomalyScore t ps = 1/5 ∨
      calculateVolumeAnomalyScore t ps = 1/2 ∨
      calculateVolumeAnomalyScore t ps = 4/5 := by
  unfold calculateVolumeAnomalyScore
  rcases getPriceOnDate ps t.transaction_date with _ | bar
  · tauto
  · dsimp only
    split_ifs <;> tauto

lemma analyzeTransaction_ok (det : InsiderTradingDetector) (t : StockTransaction)
    (member : CongressMember) (acts : List LegislativeAction)
    (cas : List CommitteeAssignment) (ps : List StockPrice)
    (m : AnalysisMetrics)
    (h : analyzeTransaction det t member acts cas ps = .ok m) :
    m.overall_suspicion_score =
      calculateTimingScore det t acts ps * (3/10) +
      calculateCommitteeCorrelation t cas * (1/4) +
      m.price_movement_score * (7/20) +
      calculateVolumeAnomalyScore t ps * (1/10) ∧
    calculatePriceMovementScore t ps = .ok m.price_movement_score := by
  unfold analyzeTransaction at h
  rcases hp : calculatePriceMovementScore t ps with e | p
  · rw [hp] at h; exact absurd h (by simp)
  · rw [hp] at h
    injection h with h
    subst h
    exact ⟨rfl, rfl⟩

lemma analyzeTransaction_ok_bounds (det : InsiderTradingDetector) (t : StockTransaction)
    (member : CongressMember) (acts : List LegislativeAction)
    (cas : List CommitteeAssignment) (ps : List StockPrice)
    (m : AnalysisMetrics)
    (h : analyzeTransaction det t member acts cas ps = .ok m) :
    0 ≤ m.overall_suspicion_score ∧ m.overall_suspicion_score ≤ 1 := by
  obtain ⟨hov, hp⟩ := analyzeTransaction_ok det t member acts cas ps m h
  have h1 := calculateTimingScore_nonneg det t acts ps
  have h2 := calculateTimingScore_le_one det t acts ps
  have h3 := calculateCommitteeCorrelation_cases t cas
  have h4 := calculatePriceMovementScore_cases t ps _ hp
  have h5 := calculateVolumeAnomalyScore_cases t ps
  constructor
  · rw [hov]
    rcases h3 with h3 | h3 <;> rcases h5 with h5 | h5 | h5 | h5 <;>
      rcases h4 with h4 | h4 | h4 | h4 <;> rw [h3, h4, h5] <;> linarith
  · rw [hov]
    rcases h3 with h3 | h3 <;> rcases h5 with h5 | h5 | h5 | h5 <;>
      rcases h4 with h4 | h4 | h4 | h4 <;> rw [h3, h4, h5] <;> linarith

/-! ### Concrete fixtures used by witnesses and counterexamples -/

/-- A member fixture. -/
def fixMember : CongressMember :=
  { member_id := "S001", name := "Test Member", chamber := "Senate",
    state := "CA", party := "Democratic", start_date := 0 }

/-- A transaction fixture: tech company, traded on day 0. -/
def fixTx : StockTransaction :=
  { transaction_id := "tx1", member_id := "S001", ticker := "TECH",
    company_name := "Tech Corp", transaction_type := "Buy",
    transaction_date := 0, disclosure_date := 10,
    amount_range := "$1,001-$15,000", owner := "Self" }

/-- A relevant legislative action 5 days after `fixTx`. -/
def fixAct : LegislativeAction :=
  { action_id := "a1", member_id := "S001", action_type := "vote",
    bill_id := "S.1", bill_title := "Tech Act", action_date := ⟨5⟩ }

/-- A committee assignment whose name contains the `technology` domain label. -/
def fixCas : CommitteeAssignment :=
  { member_id := "S001", committee_name := "Technology Committee",
    committee_code := "TC", start_date := 0 }

/-- One far-away price bar for `TECH`, so that the price-movement and
volume sub-scores are 0 while the ticker still has price data. -/
def fixBar : StockPrice :=
  { ticker := "TECH", price_date := 100, open_price := 10, close_price := 10,
    high_price := 10, low_price := 10, volume := 1000 }

/-- Price mapping fixture for `fixTx`. -/
def fixPrices : List (String × List StockPrice) := [("TECH", [fixBar])]

/-- The metrics `_analyze_transaction` computes on the fixture:
timing 0.8, committee 0.7, price 0, volume 0, overall 0.415. -/
def fixMetrics : AnalysisMetrics :=
  { timing_score := 4/5, committee_correlation_score := 7/10,
    price_movement_score := 0, volume_anomaly_score := 0,
    overall_suspicion_score := 83/200 }

/-- The repo test fixture of `test_committee_correlation_score`. -/
def c4Tx : StockTransaction :=
  { transaction_id := "txn_002", member_id := "S001", ticker := "GOOGL",
    company_name := "Alphabet Inc Technology", transaction_type := "Buy",
    transaction_date := 0, disclosure_date := 14,
    amount_range := "$1,001-$15,000", owner := "Self" }

/-- The repo test fixture committee. -/
def c4Cas : CommitteeAssignment :=
  { member_id := "S001", committee_name := "Commerce, Science, and Transportation",
    committee_code := "COMM", start_date := 0 }

/-- Transaction-day bar with a zero closing price (day 0). -/
def zeroBar : StockPrice :=
  { ticker := "ZZ", price_date := 0, open_price := 0, close_price := 0,
    high_price := 0, low_price := 0, volume := 100 }

/-- A later bar inside the 30-day future window. -/
def laterBar : StockPrice :=
  { ticker := "ZZ", price_date := 1, open_price := 10, close_price := 10,
    high_price := 10, low_price := 10, volume := 100 }

/-- Transaction on the zero-close day. -/
def zeroTx : StockTransaction :=
  { transaction_id := "txz", member_id := "S001", ticker := "ZZ",
    company_name := "Zero Corp", transaction_type := "Buy",
    transaction_date := 0, disclosure_date := 5,
    amount_range := "$1,001-$15,000", owner := "Self" }

/-- Buy at close 100 on day 0. -/
def dropTx : StockTransaction :=
  { transaction_id := "txd", member_id := "S001", ticker := "DD",
    company_name := "Drop Corp", transaction_type := "Buy",
    transaction_date := 0, disclosure_date := 5,
    amount_range := "$1,001-$15,000", owner := "Self" }

/-- Transaction-day bar, close 100. -/
def dropBar0 : StockPrice :=
  { ticker := "DD", price_date := 0, open_price := 100, close_price := 100,
    high_price := 100, low_price := 100, volume := 100 }

/-- The only future bar, close 50: the maximum future close is below the
transaction close. -/
def dropBar1 : StockPrice :=
  { ticker := "DD", price_date := 1, open_price := 50, close_price := 50,
    high_price := 50, low_price := 50, volume := 100 }

/-- A committee assignment with the same committee name as `fixCas` but an
expired validity interval and a different role. -/
def expiredCas : CommitteeAssignment :=
  { member_id := "S001", committee_name := "Technology Committee",
    committee_code := "TC", role := "Chair", start_date := -400,
    end_date := some (-100) }

/-! ### Claim theorems -/

/-- C6: for every transaction and every collection of legislative actions,
the timing sub-score equals the sum, over all relevant actions within the
symmetric timing window, of the bracket contributions (0.8 for a signed
day difference in [0, 14], 0.4 for [-7, 0), 0.5 for [15, 30], 0 otherwise),
clamped to a maximum of 1.0; and if no relevant action exists the timing
score is 0. -/
theorem c6_timing_score_clamped_bracket_sum (det : InsiderTradingDetector)
    (t : StockTransaction) (acts : List LegislativeAction) (ps : List StockPrice) :
    calculateTimingScore det t acts ps =
      min ((relevantActions det t acts).map (timingContribution t)).sum 1 ∧
    (relevantActions det t acts = [] → calculateTimingScore det t acts ps = 0) := by
  refine ⟨calculateTimingScore_eq det t acts ps, fun h => ?_⟩
  rw [calculateTimingScore_eq, h]
  simp

/-- Witness for C6 at a concrete input: with no legislative actions the
relevant-action list is empty and the timing score is 0. -/
theorem c6_witness :
    relevantActions defaultDetector fixTx [] = [] ∧
    calculateTimingScore defaultDetector fixTx [] [] = 0 :=
  ⟨rfl, (c6_timing_score_clamped_bracket_sum defaultDetector fixTx [] []).2 rfl⟩

/-- C10: the committee-correlation sub-score depends only on the
transaction's company name and the committee_name fields of the
assignments (so start_date, end_date and role are ignored — an expired
assignment scores like a current one), and with an empty assignment list
(a matching committee listed only on the Member record, which is not even
an input of the computation) the score is 0. -/
theorem c10_committee_correlation_depends_only_on_names :
    (∀ (t1 t2 : StockTransaction) (cas1 cas2 : List CommitteeAssignment),
       t1.company_name = t2.company_name →
       cas1.map CommitteeAssignment.committee_name =
         cas2.map CommitteeAssignment.committee_name →
       calculateCommitteeCorrelation t1 cas1 = calculateCommitteeCorrelation t2 cas2) ∧
    (∀ t : StockTransaction, calculateCommitteeCorrelation t [] = 0) := by
  constructor
  · intro t1 t2 cas1 cas2 hc hn
    have hm : cas1.map (fun a => strLower a.committee_name) =
        cas2.map (fun a => strLower a.committee_name) := by
      have e1 : cas1.map (fun a => strLower a.committee_name) =
          (cas1.map CommitteeAssignment.committee_name).map strLower := by
        rw [List.map_map]; rfl
      have e2 : cas2.map (fun a => strLower a.committee_name) =
          (cas2.map CommitteeAssignment.committee_name).map strLower := by
        rw [List.map_map]; rfl
      rw [e1, e2, hn]
    simp only [calculateCommitteeCorrelation]
    rw [hc, hm]
  · intro t
    simp only [calculateCommitteeCorrelation]
    split_ifs <;> simp_all

/-- Witness for C10: an expired Chair assignment to the same committee
name scores exactly like the current assignment, and that common value is
the full 0.7. -/
theorem c10_witness :
    [expiredCas].map CommitteeAssignment.committee_name =
      [fixCas].map CommitteeAssignment.committee_name ∧
    calculateCommitteeCorrelation fixTx [expiredCas] =
      calculateCommitteeCorrelation fixTx [fixCas] ∧
    calculateCommitteeCorrelation fixTx [expiredCas] = 7/10 :=
  ⟨rfl,
   (c10_committee_correlation_depends_only_on_names).1 fixTx fixTx
     [expiredCas] [fixCas] rfl rfl,
   by with_unfolding_all decide⟩

/-- C4 (code bug exhibited): on the repository's own test fixture of
`test_committee_correlation_score` — company name "Alphabet Inc
Technology" and committee "Commerce, Science, and Transportation" — the
committee-correlation sub-score evaluates to 0, not a positive 0.7: the
code requires the matched domain label ("technology") to occur as a
substring of a committee name, which fails here, contradicting the
repository's own test assertion `score > 0.0`. -/
theorem c4_committee_correlation_zero_on_test_fixture :
    calculateCommitteeCorrelation c4Tx [c4Cas] = 0 ∧
    ¬ (0 < calculateCommitteeCorrelation c4Tx [c4Cas]) := by
  constructor
  · with_unfolding_all decide
  · with_unfolding_all decide

/-- C3 (code bug exhibited): with a zero closing price on the transaction
date and a price bar inside the 30-day future window, the price-movement
computation hits an unguarded division by the zero close and raises, and
`analyze_member_activity` propagates the fault instead of resolving the
sub-score to 0. -/
theorem c3_zero_close_division_fault :
    calculatePriceMovementScore zeroTx [zeroBar, laterBar] = .error () ∧
    analyzeMemberActivity defaultDetector fixMember [zeroTx] [] []
      [("ZZ", [zeroBar, laterBar])] 0 = .error () := by
  exact ⟨by decide, by decide⟩

/-- C5 (counterexample): the fractional favorable change CAN be negative —
a Buy at close 100 whose only future-window bar closes at 50 yields
change -1/2 < 0 (the window excludes the transaction-day bar, so its
maximum close can lie below the transaction close). -/
theorem c5_counterexample_negative_change :
    favorableChange dropTx [dropBar0, dropBar1] = some (Except.ok (-1/2)) ∧
    ((-1 : ℚ)/2) < 0 :=
  ⟨by with_unfolding_all decide, by norm_num⟩

/-- C5 (amended): the fractional favorable change computed by the
price-movement sub-score can be negative; whenever it is negative the
resulting price-movement score is 0 (no fault and no positive score). -/
theorem c5_negative_change_scores_zero (t : StockTransaction)
    (ps : List StockPrice) (c : ℚ)
    (h : favorableChange t ps = some (Except.ok c)) (hneg : c < 0) :
    calculatePriceMovementScore t ps = .ok 0 := by
  simp only [calculatePriceMovementScore, h]
  rw [if_neg (by linarith), if_neg (by linarith), if_neg (by linarith)]

/-- Witness for C5 (amended) at the concrete counterexample input. -/
theorem c5_witness :
    favorableChange dropTx [dropBar0, dropBar1] = some (Except.ok (-1/2)) ∧
    ((-1 : ℚ)/2) < 0 ∧
    calculatePriceMovementScore dropTx [dropBar0, dropBar1] = .ok 0 :=
  ⟨by with_unfolding_all decide, by norm_num,
   c5_negative_change_scores_zero dropTx [dropBar0, dropBar1] (-1/2)
     (by with_unfolding_all decide) (by norm_num)⟩

/-- C1: every alert returned by `analyze_member_activity` has
`confidence_score ∈ [0, 1]`, and an alert is constructed for a transaction
only when that transaction's combined weighted suspicion score reaches the
detector's `min_confidence_threshold` (`3/10` for `defaultDetector`); the
alert's confidence is exactly that transaction's overall suspicion score. -/
theorem c1_alert_confidence_bounds (det : InsiderTradingDetector)
    (member : CongressMember) (txs : List StockTransaction)
    (acts : List LegislativeAction) (cas : List CommitteeAssignment)
    (prices : List (String × List StockPrice)) (now : ℤ)
    (alerts : List InsiderTradingAlert)
    (h : analyzeMemberActivity det member txs acts cas prices now = .ok alerts) :
    ∀ a ∈ alerts,
      0 ≤ a.confidence_score ∧ a.confidence_score ≤ 1 ∧
      det.min_confidence_threshold ≤ a.confidence_score ∧
      ∃ t ∈ txs, ∃ m : AnalysisMetrics,
        analyzeTransaction det t member acts cas (dictGet prices t.ticker) = .ok m ∧
        a.confidence_score = m.overall_suspicion_score := by
  induction txs generalizing alerts with
  | nil =>
    simp only [analyzeMemberActivity] at h
    injection h with h
    subst h
    intro a ha
    exact absurd ha (List.not_mem_nil a)
  | cons t rest ih =>
    simp only [analyzeMemberActivity] at h
    by_cases hp : dictGet prices t.ticker = []
    · rw [if_pos hp] at h
      intro a ha
      obtain ⟨h0, h1, h2, tt, htt, mm, hmm, hconf⟩ := ih alerts h a ha
      exact ⟨h0, h1, h2, tt, List.mem_cons_of_mem t htt, mm, hmm, hconf⟩
    · rw [if_neg hp] at h
      rcases hm : analyzeTransaction det t member acts cas (dictGet prices t.ticker)
        with e | m
      · rw [hm] at h; exact absurd h (by simp)
      · rw [hm] at h
        dsimp only at h
        rcases hr : analyzeMemberActivity det member rest acts cas prices now
          with e | tail
        · rw [hr] at h; exact absurd h (by simp)
        · rw [hr] at h
          dsimp only at h
          injection h with h
          subst h
          intro a ha
          by_cases hth : det.min_confidence_threshold ≤ m.overall_suspicion_score
          · rw [if_pos hth] at ha
            rcases List.mem_cons.mp ha with rfl | ha2
            · obtain ⟨hb0, hb1⟩ :=
                analyzeTransaction_ok_bounds det t member acts cas _ m hm
              exact ⟨hb0, hb1, hth, t, List.mem_cons_self t rest, m, hm, rfl⟩
            · obtain ⟨h0, h1, h2, tt, htt, mm, hmm, hconf⟩ := ih tail hr a ha2
              exact ⟨h0, h1, h2, tt, List.mem_cons_of_mem t htt, mm, hmm, hconf⟩
          · rw [if_neg hth] at ha
            obtain ⟨h0, h1, h2, tt, htt, mm, hmm, hconf⟩ := ih tail hr a ha
            exact ⟨h0, h1, h2, tt, List.mem_cons_of_mem t htt, mm, hmm, hconf⟩

/-- Witness for C1 at the concrete alert-producing fixture. -/
theorem c1_witness :
    analyzeMemberActivity defaultDetector fixMember [fixTx] [fixAct] [fixCas]
      fixPrices 0 = Except.ok [createAlert fixTx fixMember fixMetrics 0] ∧
    (0 ≤ (createAlert fixTx fixMember fixMetrics 0).confidence_score ∧
     (createAlert fixTx fixMember fixMetrics 0).confidence_score ≤ 1 ∧
     defaultDetector.min_confidence_threshold ≤
       (createAlert fixTx fixMember fixMetrics 0).confidence_score ∧
     ∃ t ∈ [fixTx], ∃ m : AnalysisMetrics,
       analyzeTransaction defaultDetector t fixMember [fixAct] [fixCas]
         (dictGet fixPrices t.ticker) = .ok m ∧
       (createAlert fixTx fixMember fixMetrics 0).confidence_score =
         m.overall_suspicion_score) :=
  ⟨by with_unfolding_all decide,
   c1_alert_confidence_bounds defaultDetector fixMember [fixTx] [fixAct] [fixCas]
     fixPrices 0 [createAlert fixTx fixMember fixMetrics 0]
     (by with_unfolding_all decide)
     (createAlert fixTx fixMember fixMetrics 0) (List.mem_singleton.mpr rfl)⟩

/-- The fields of an alert that are derived from the inputs and the
scores alone (everything except the wall-clock `alert_id`/`created_at`). -/
def scoreFields (a : InsiderTradingAlert) :
    String × String × String × ℚ × String × List String × ℤ × Option ℚ :=
  (a.member_id, a.transaction_id, a.alert_type, a.confidence_score,
   a.description, a.legislative_actions, a.price_movement_days,
   a.price_change_percent)

/-- C2 (amended): two calls of `analyze_member_activity` on identical
input collections agree on every field of every alert except the
wall-clock-derived `alert_id` and `created_at` (same success/failure
shape, same alert count and order, identical score-derived fields). -/
theorem c2_identical_inputs_identical_score_fields (det : InsiderTradingDetector)
    (member : CongressMember) (txs : List StockTransaction)
    (acts : List LegislativeAction) (cas : List CommitteeAssignment)
    (prices : List (String × List StockPrice)) (n1 n2 : ℤ) :
    Except.map (List.map scoreFields)
      (analyzeMemberActivity det member txs acts cas prices n1) =
    Except.map (List.map scoreFields)
      (analyzeMemberActivity det member txs acts cas prices n2) := by
  induction txs with
  | nil => rfl
  | cons t rest ih =>
    simp only [analyzeMemberActivity]
    by_cases hp : dictGet prices t.ticker = []
    · rw [if_pos hp, if_pos hp]
      exact ih
    · rw [if_neg hp, if_neg hp]
      rcases hm : analyzeTransaction det t member acts cas (dictGet prices t.ticker)
        with e | m
      · rfl
      · dsimp only
        rcases h1 : analyzeMemberActivity det member rest acts cas prices n1
          with e1 | tail1 <;>
          rcases h2 : analyzeMemberActivity det member rest acts cas prices n2
            with e2 | tail2
        · cases e1; cases e2; rfl
        · rw [h1, h2] at ih; exact absurd ih (by simp [Except.map])
        · rw [h1, h2] at ih; exact absurd ih (by simp [Except.map])
        · rw [h1, h2] at ih
          dsimp only
          have htail : List.map scoreFields tail1 = List.map scoreFields tail2 := by
            simpa [Except.map] using ih
          by_cases hth : det.min_confidence_threshold ≤ m.overall_suspicion_score
          · rw [if_pos hth, if_pos hth]
            simp only [Except.map, List.map_cons, htail]
            rfl
          · rw [if_neg hth, if_neg hth]
            simp only [Except.map, htail]

/-- C2 (counterexample): the claim of byte-identical output including
`alert_id` and `created_at` fails — the alert id embeds the wall-clock
timestamp, so the same four input collections yield different alert ids
at two different call instants. -/
theorem c2_counterexample_wall_clock_in_output :
    analyzeMemberActivity defaultDetector fixMember [fixTx] [fixAct] [fixCas]
      fixPrices 0 ≠
    analyzeMemberActivity defaultDetector fixMember [fixTx] [fixAct] [fixCas]
      fixPrices 1 := by
  intro h
  have h0 : analyzeMemberActivity defaultDetector fixMember [fixTx] [fixAct] [fixCas]
      fixPrices 0 = .ok [createAlert fixTx fixMember fixMetrics 0] := by
    with_unfolding_all decide
  have h1 : analyzeMemberActivity defaultDetector fixMember [fixTx] [fixAct] [fixCas]
      fixPrices 1 = .ok [createAlert fixTx fixMember fixMetrics 1] := by
    with_unfolding_all decide
  rw [h0, h1] at h
  have hid := congrArg (fun r =>
    match r with
    | Except.ok (a :: _) => a.alert_id
    | _ => "") h
  exact absurd hid (by with_unfolding_all decide)

/-- C8: a transaction whose ticker has no price series in the mapping
(key absent, or present with an empty bar list) produces no alert and the
remaining transactions are processed as if it were not there. -/
theorem c8_missing_price_series_skips_transaction (det : InsiderTradingDetector)
    (member : CongressMember) (t : StockTransaction) (rest : List StockTransaction)
    (acts : List LegislativeAction) (cas : List CommitteeAssignment)
    (prices : List (String × List StockPrice)) (now : ℤ)
    (h : prices.lookup t.ticker = none ∨ prices.lookup t.ticker = some []) :
    analyzeMemberActivity det member (t :: rest) acts cas prices now =
    analyzeMemberActivity det member rest acts cas prices now := by
  have hp : dictGet prices t.ticker = [] := by
    unfold dictGet
    rcases h with h | h <;> rw [h]
  simp only [analyzeMemberActivity]
  rw [if_pos hp]

/-- Witness for C8: ticker "ZZ" is absent from the fixture mapping, so the
transaction is skipped (the run equals the run on the remaining, empty,
transaction list). -/
theorem c8_witness :
    (fixPrices.lookup zeroTx.ticker = none ∨
     fixPrices.lookup zeroTx.ticker = some []) ∧
    analyzeMemberActivity defaultDetector fixMember [zeroTx] [] [] fixPrices 0 =
      analyzeMemberActivity defaultDetector fixMember [] [] [] fixPrices 0 :=
  ⟨Or.inl (by decide),
   c8_missing_price_series_skips_transaction defaultDetector fixMember zeroTx []
     [] [] fixPrices 0 (Or.inl (by decide))⟩

lemma sampleVariance_nonneg (l : List ℚ) (hl : 1 < l.length) :
    0 ≤ sampleVariance l := by
  unfold sampleVariance
  apply div_nonneg
  · refine List.sum_nonneg (fun x hx => ?_)
    obtain ⟨y, _, rfl⟩ := List.mem_map.mp hx
    positivity
  · have : (1 : ℚ) < (l.length : ℚ) := by exact_mod_cast hl
    linarith

lemma zAtLeast_iff_le_zScore (k d v : ℚ) (hk : 1 ≤ k) (hv : 0 ≤ v) :
    zAtLeast k d v ↔
      (k : ℝ) ≤ (d : ℝ) / max (Real.sqrt (v : ℝ)) 1 := by
  have hvr : (0 : ℝ) ≤ (v : ℝ) := by exact_mod_cast hv
  have hm : (0 : ℝ) < max (Real.sqrt (v : ℝ)) 1 :=
    lt_of_lt_of_le one_pos (le_max_right _ _)
  have hk0 : (0 : ℝ) ≤ (k : ℝ) := by
    have : (0 : ℚ) ≤ k := le_trans zero_le_one hk
    exact_mod_cast this
  rw [le_div_iff₀ hm, mul_max_of_nonneg _ _ hk0, mul_one, max_le_iff]
  unfold zAtLeast
  constructor
  · rintro ⟨h1, h2⟩
    have hkd : (k : ℝ) ≤ (d : ℝ) := by exact_mod_cast h1
    have hd0 : (0 : ℝ) ≤ (d : ℝ) := le_trans (le_trans (by norm_num : (0:ℝ) ≤ 1)
      (by exact_mod_cast hk)) hkd
    refine ⟨?_, hkd⟩
    have hnn : (0 : ℝ) ≤ (k : ℝ) * Real.sqrt (v : ℝ) :=
      mul_nonneg hk0 (Real.sqrt_nonneg _)
    have hsq : ((k : ℝ) * Real.sqrt (v : ℝ)) ^ 2 ≤ (d : ℝ) ^ 2 := by
      rw [mul_pow, Real.sq_sqrt hvr]
      exact_mod_cast h2
    exact (pow_le_pow_iff_left₀ hnn hd0 two_ne_zero).mp hsq
  · rintro ⟨h1, h2⟩
    have hkd : k ≤ d := by exact_mod_cast h2
    refine ⟨hkd, ?_⟩
    have hnn : (0 : ℝ) ≤ (k : ℝ) * Real.sqrt (v : ℝ) :=
      mul_nonneg hk0 (Real.sqrt_nonneg _)
    have hsq : ((k : ℝ) * Real.sqrt (v : ℝ)) ^ 2 ≤ (d : ℝ) ^ 2 :=
      pow_le_pow_left₀ hnn h1 2
    rw [mul_pow, Real.sq_sqrt hvr] at hsq
    exact_mod_cast hsq

/-- C7: with a non-empty baseline window and a present transaction-day bar,
the volume-anomaly sub-score is the z-score of the transaction-day volume
against the baseline mean, with the sample standard deviation (or 20% of
the mean when exactly one baseline point exists) floored at 1 as the
denominator, mapped by z ≥ 3 → 0.8, z ≥ 2 → 0.5, z ≥ 1 → 0.2, else 0. -/
theorem c7_volume_anomaly_is_zscore_brackets (t : StockTransaction)
    (ps : List StockPrice) (bar : StockPrice)
    (hb : baselinePrices t ps ≠ [])
    (htx : getPriceOnDate ps t.transaction_date = some bar) :
    calculateVolumeAnomalyScore t ps =
      (let vols := (baselinePrices t ps).map (fun p => (p.volume : ℚ))
       let avg := pyMean vols
       let std : ℝ := if 1 < vols.length
         then Real.sqrt ((sampleVariance vols : ℚ) : ℝ)
         else ((avg * (1/5) : ℚ) : ℝ)
       let z : ℝ := (((bar.volume : ℚ) - avg : ℚ) : ℝ) / max std 1
       if 3 ≤ z then 4/5 else if 2 ≤ z then 1/2 else if 1 ≤ z then 1/5 else 0) := by
  simp only [calculateVolumeAnomalyScore, htx]
  rw [if_neg hb]
  set vols := (baselinePrices t ps).map (fun p => (p.volume : ℚ)) with hvols
  set avg := pyMean vols with havg
  set d := (bar.volume : ℚ) - avg with hd
  by_cases hlen : 1 < vols.length
  · rw [if_pos hlen, if_pos hlen]
    have h3 := zAtLeast_iff_le_zScore 3 d (sampleVariance vols)
      (by norm_num) (sampleVariance_nonneg _ hlen)
    have h2 := zAtLeast_iff_le_zScore 2 d (sampleVariance vols)
      (by norm_num) (sampleVariance_nonneg _ hlen)
    have h1 := zAtLeast_iff_le_zScore 1 d (sampleVariance vols)
      (by norm_num) (sampleVariance_nonneg _ hlen)
    simp only [h3, h2, h1]
    norm_cast
  · rw [if_neg hlen, if_neg hlen]
    have key : ∀ k : ℚ, (k ≤ d / max (avg * (1/5)) 1) ↔
        ((k : ℝ) ≤ ((d : ℚ) : ℝ) / max (((avg * (1/5) : ℚ)) : ℝ) 1) := by
      intro k
      have hcast : (((d / max (avg * (1/5)) 1 : ℚ)) : ℝ) =
          ((d : ℚ) : ℝ) / max (((avg * (1/5) : ℚ)) : ℝ) 1 := by
        push_cast
        ring
      rw [← hcast]
      exact (Rat.cast_le).symm
    simp only [key]
    norm_cast

/-- Transaction on day 0 for the volume-anomaly witness. -/
def volTx : StockTransaction :=
  { transaction_id := "txv", member_id := "S001", ticker := "VV",
    company_name := "Vol Corp", transaction_type := "Buy",
    transaction_date := 0, disclosure_date := 5,
    amount_range := "$1,001-$15,000", owner := "Self" }

/-- Single baseline bar 10 days before the transaction, volume 100. -/
def volBase : StockPrice :=
  { ticker := "VV", price_date := -10, open_price := 10, close_price := 10,
    high_price := 10, low_price := 10, volume := 100 }

/-- Transaction-day bar with a volume spike to 400. -/
def volBar0 : StockPrice :=
  { ticker := "VV", price_date := 0, open_price := 10, close_price := 10,
    high_price := 10, low_price := 10, volume := 400 }

/-- Witness for C7 at a concrete input (one baseline point, z = 15 ≥ 3,
so the score is 0.8). -/
theorem c7_witness :
    baselinePrices volTx [volBase, volBar0] ≠ [] ∧
    getPriceOnDate [volBase, volBar0] volTx.transaction_date = some volBar0 ∧
    calculateVolumeAnomalyScore volTx [volBase, volBar0] =
      (let vols := (baselinePrices volTx [volBase, volBar0]).map (fun p => (p.volume : ℚ))
       let avg := pyMean vols
       let std : ℝ := if 1 < vols.length
         then Real.sqrt ((sampleVariance vols : ℚ) : ℝ)
         else ((avg * (1/5) : ℚ) : ℝ)
       let z : ℝ := (((volBar0.volume : ℚ) - avg : ℚ) : ℝ) / max std 1
       if 3 ≤ z then 4/5 else if 2 ≤ z then 1/2 else if 1 ≤ z then 1/5 else 0) :=
  ⟨by decide, by decide,
   c7_volume_anomaly_is_zscore_brackets volTx [volBase, volBar0] volBar0
     (by decide) (by decide)⟩

/-! ### Permutation invariance of the scorer (C9) -/

lemma foldl_max_mem (xs : List ℚ) : ∀ b : ℚ, xs.foldl max b = b ∨ xs.foldl max b ∈ xs := by
  induction xs with
  | nil => intro b; left; rfl
  | cons x xs ih =>
    intro b
    rcases ih (max b x) with h | h
    · rcases max_choice b x with hm | hm
      · left; rw [List.foldl_cons, h, hm]
      · right; rw [List.foldl_cons, h, hm]; exact List.mem_cons_self x xs
    · right; exact List.mem_cons_of_mem x h

lemma le_foldl_max (xs : List ℚ) : ∀ b : ℚ, b ≤ xs.foldl max b := by
  induction xs with
  | nil => intro b; exact le_refl b
  | cons x xs ih =>
    intro b
    exact le_trans (le_max_left b x) (ih (max b x))

lemma mem_le_foldl_max (xs : List ℚ) : ∀ (b y : ℚ), y ∈ xs → y ≤ xs.foldl max b := by
  induction xs with
  | nil => intro b y hy; exact absurd hy (List.not_mem_nil y)
  | cons x xs ih =>
    intro b y hy
    rcases List.mem_cons.mp hy with rfl | hy2
    · exact le_trans (le_max_right b y) (le_foldl_max xs (max b y))
    · exact ih (max b x) y hy2

lemma listMax_mem (l : List ℚ) (h : l ≠ []) : listMax l ∈ l := by
  cases l with
  | nil => exact absurd rfl h
  | cons x xs =>
    rcases foldl_max_mem xs x with hm | hm
    · rw [listMax, hm]; exact List.mem_cons_self x xs
    · rw [listMax]; exact List.mem_cons_of_mem x hm

lemma le_listMax (l : List ℚ) (y : ℚ) (hy : y ∈ l) : y ≤ listMax l := by
  cases l with
  | nil => exact absurd hy (List.not_mem_nil y)
  | cons x xs =>
    rcases List.mem_cons.mp hy with rfl | h
    · exact le_foldl_max xs y
    · exact mem_le_foldl_max xs x y h

lemma listMax_perm (l1 l2 : List ℚ) (h : List.Perm l1 l2) :
    listMax l1 = listMax l2 := by
  rcases eq_or_ne l1 [] with rfl | h1
  · rw [h.nil_eq.symm]
  · have h2 : l2 ≠ [] := fun he => h1 ((he ▸ h).eq_nil)
    exact le_antisymm
      (le_listMax l2 _ (h.mem_iff.mp (listMax_mem l1 h1)))
      (le_listMax l1 _ (h.mem_iff.mpr (listMax_mem l2 h2)))

lemma foldl_min_mem (xs : List ℚ) : ∀ b : ℚ, xs.foldl min b = b ∨ xs.foldl min b ∈ xs := by
  induction xs with
  | nil => intro b; left; rfl
  | cons x xs ih =>
    intro b
    rcases ih (min b x) with h | h
    · rcases min_choice b x with hm | hm
      · left; rw [List.foldl_cons, h, hm]
      · right; rw [List.foldl_cons, h, hm]; exact List.mem_cons_self x xs
    · right; exact List.mem_cons_of_mem x h

lemma foldl_min_le (xs : List ℚ) : ∀ b : ℚ, xs.foldl min b ≤ b := by
  induction xs with
  | nil => intro b; exact le_refl b
  | cons x xs ih =>
    intro b
    exact le_trans (ih (min b x)) (min_le_left b x)

lemma foldl_min_le_mem (xs : List ℚ) : ∀ (b y : ℚ), y ∈ xs → xs.foldl min b ≤ y := by
  induction xs with
  | nil => intro b y hy; exact absurd hy (List.not_mem_nil y)
  | cons x xs ih =>
    intro b y hy
    rcases List.mem_cons.mp hy with rfl | hy2
    · exact le_trans (foldl_min_le xs (min b y)) (min_le_right b y)
    · exact ih (min b x) y hy2

lemma listMin_mem (l : List ℚ) (h : l ≠ []) : listMin l ∈ l := by
  cases l with
  | nil => exact absurd rfl h
  | cons x xs =>
    rcases foldl_min_mem xs x with hm | hm
    · rw [listMin, hm]; exact List.mem_cons_self x xs
    · rw [listMin]; exact List.mem_cons_of_mem x hm

lemma listMin_le (l : List ℚ) (y : ℚ) (hy : y ∈ l) : listMin l ≤ y := by
  cases l with
  | nil => exact absurd hy (List.not_mem_nil y)
  | cons x xs =>
    rcases List.mem_cons.mp hy with rfl | h
    · exact foldl_min_le xs y
    · exact foldl_min_le_mem xs x y h

lemma listMin_perm (l1 l2 : List ℚ) (h : List.Perm l1 l2) :
    listMin l1 = listMin l2 := by
  rcases eq_or_ne l1 [] with rfl | h1
  · rw [h.nil_eq.symm]
  · have h2 : l2 ≠ [] := fun he => h1 ((he ▸ h).eq_nil)
    exact le_antisymm
      (listMin_le l1 _ (h.mem_iff.mpr (listMin_mem l2 h2)))
      (listMin_le l2 _ (h.mem_iff.mp (listMin_mem l1 h1)))

lemma pyMean_perm (l1 l2 : List ℚ) (h : List.Perm l1 l2) :
    pyMean l1 = pyMean l2 := by
  unfold pyMean
  rw [h.sum_eq, h.length_eq]

lemma sampleVariance_perm (l1 l2 : List ℚ) (h : List.Perm l1 l2) :
    sampleVariance l1 = sampleVariance l2 := by
  unfold sampleVariance
  rw [pyMean_perm l1 l2 h, (h.map (fun x => (x - pyMean l2) ^ 2)).sum_eq, h.length_eq]

lemma perm_eq_nil_iff {α : Type _} (l1 l2 : List α) (h : List.Perm l1 l2) :
    l1 = [] ↔ l2 = [] := by
  constructor
  · intro he; exact ((he ▸ h : List.Perm [] l2).nil_eq).symm
  · intro he; exact (he ▸ h : List.Perm l1 []).eq_nil

lemma getPriceOnDate_perm (ps1 ps2 : List StockPrice) (d : ℤ)
    (h : List.Perm ps1 ps2)
    (hnd : (ps1.map StockPrice.price_date).Nodup) :
    getPriceOnDate ps1 d = getPriceOnDate ps2 d := by
  unfold getPriceOnDate
  rcases e1 : ps1.find? (fun p => p.price_date == d) with _ | b1
  · rcases e2 : ps2.find? (fun p => p.price_date == d) with _ | b2
    · rw [e1, e2]
    · have hb2 := List.find?_some e2
      have hm2 := h.mem_iff.mpr (List.mem_of_find?_eq_some e2)
      exact absurd hb2 (by simpa using (List.find?_eq_none.mp e1) b2 hm2)
  · have hb1 := List.find?_some e1
    have hm1 := List.mem_of_find?_eq_some e1
    rcases e2 : ps2.find? (fun p => p.price_date == d) with _ | b2
    · exact absurd hb1
        (by simpa using (List.find?_eq_none.mp e2) b1 (h.mem_iff.mp hm1))
    · have hb2 := List.find?_some e2
      have hm2 := h.mem_iff.mpr (List.mem_of_find?_eq_some e2)
      have hd1 : b1.price_date = d := by simpa using hb1
      have hd2 : b2.price_date = d := by simpa using hb2
      have hbb : b1 = b2 :=
        List.inj_on_of_nodup_map hnd hm1 hm2 (by rw [hd1, hd2])
      rw [e1, e2, hbb]

lemma favorableChange_perm (t : StockTransaction) (ps1 ps2 : List StockPrice)
    (h : List.Perm ps1 ps2)
    (hnd : (ps1.map StockPrice.price_date).Nodup) :
    favorableChange t ps1 = favorableChange t ps2 := by
  unfold favorableChange
  rw [getPriceOnDate_perm ps1 ps2 _ h hnd]
  cases hg : getPriceOnDate ps2 t.transaction_date with
  | none => simp only [hg]
  | some txp =>
    simp only [hg]
    have hfp : List.Perm (futurePrices t ps1) (futurePrices t ps2) := h.filter _
    have hfe := perm_eq_nil_iff _ _ hfp
    by_cases hf : futurePrices t ps1 = []
    · rw [if_pos hf, if_pos (hfe.mp hf)]
    · rw [if_neg hf, if_neg (fun hh => hf (hfe.mpr hh))]
      rw [listMax_perm _ _ (hfp.map (fun p => p.close_price)),
          listMin_perm _ _ (hfp.map (fun p => p.close_price))]

lemma calculateVolumeAnomalyScore_perm (t : StockTransaction)
    (ps1 ps2 : List StockPrice) (h : List.Perm ps1 ps2)
    (hnd : (ps1.map StockPrice.price_date).Nodup) :
    calculateVolumeAnomalyScore t ps1 = calculateVolumeAnomalyScore t ps2 := by
  unfold calculateVolumeAnomalyScore
  rw [getPriceOnDate_perm ps1 ps2 _ h hnd]
  cases hg : getPriceOnDate ps2 t.transaction_date with
  | none => simp only [hg]
  | some bar =>
    simp only [hg]
    have hbp : List.Perm (baselinePrices t ps1) (baselinePrices t ps2) := h.filter _
    have hbe := perm_eq_nil_iff _ _ hbp
    by_cases hb : baselinePrices t ps1 = []
    · rw [if_pos hb, if_pos (hbe.mp hb)]
    · rw [if_neg hb, if_neg (fun hh => hb (hbe.mpr hh))]
      have hv : List.Perm ((baselinePrices t ps1).map (fun p => (p.volume : ℚ)))
          ((baselinePrices t ps2).map (fun p => (p.volume : ℚ))) :=
        hbp.map _
      rw [pyMean_perm _ _ hv, sampleVariance_perm _ _ hv, hv.length_eq]

lemma calculateTimingScore_prices_irrelevant (det : InsiderTradingDetector)
    (t : StockTransaction) (acts : List LegislativeAction)
    (ps1 ps2 : List StockPrice) :
    calculateTimingScore det t acts ps1 = calculateTimingScore det t acts ps2 := rfl

lemma analyzeTransaction_perm (det : InsiderTradingDetector) (t : StockTransaction)
    (member : CongressMember) (acts : List LegislativeAction)
    (cas : List CommitteeAssignment) (ps1 ps2 : List StockPrice)
    (h : List.Perm ps1 ps2)
    (hnd : (ps1.map StockPrice.price_date).Nodup) :
    analyzeTransaction det t member acts cas ps1 =
    analyzeTransaction det t member acts cas ps2 := by
  have hpm : calculatePriceMovementScore t ps1 = calculatePriceMovementScore t ps2 := by
    unfold calculatePriceMovementScore
    rw [favorableChange_perm t ps1 ps2 h hnd]
  unfold analyzeTransaction
  rw [hpm, calculateVolumeAnomalyScore_perm t ps1 ps2 h hnd,
      calculateTimingScore_prices_irrelevant det t acts ps1 ps2]

/-- `m2` carries the same tickers in the same order as `m1`, each with a
permutation of `m1`'s bars for that ticker. -/
def permutedPerTicker (m1 m2 : List (String × List StockPrice)) : Prop :=
  List.Forall₂ (fun e1 e2 => e1.1 = e2.1 ∧ List.Perm e1.2 e2.2) m1 m2

lemma dictGet_perm_of_permutedPerTicker (m1 m2 : List (String × List StockPrice))
    (h : permutedPerTicker m1 m2) (k : String) :
    List.Perm (dictGet m1 k) (dictGet m2 k) := by
  unfold permutedPerTicker at h
  induction h with
  | nil => exact List.Perm.refl _
  | @cons a b l1 l2 hab hrest ih =>
    obtain ⟨ka, va⟩ := a
    obtain ⟨kb, vb⟩ := b
    obtain ⟨hk, hp⟩ := hab
    dsimp only at hk hp
    subst hk
    unfold dictGet
    by_cases hq : k == ka
    · simp only [List.lookup, hq]
      exact hp
    · simp only [List.lookup, hq]
      exact ih

lemma dictGet_cases (m : List (String × List StockPrice)) (k : String) :
    dictGet m k = [] ∨ ∃ e ∈ m, dictGet m k = e.2 := by
  unfold dictGet
  induction m with
  | nil => left; rfl
  | cons p t ih =>
    obtain ⟨k1, v1⟩ := p
    by_cases hq : k == k1
    · simp only [List.lookup, hq]
      right
      exact ⟨(k1, v1), List.mem_cons_self _ _, rfl⟩
    · simp only [List.lookup, hq]
      rcases ih with h | ⟨e, he, hee⟩
      · left; exact h
      · right; exact ⟨e, List.mem_cons_of_mem _ he, hee⟩

/-- C9: when every ticker's bar collection has pairwise-distinct dates,
permuting the bars inside each ticker's collection leaves the analyzer's
entire output unchanged (same clock reading), in particular every
score-derived alert field. -/
theorem c9_bar_order_irrelevant (det : InsiderTradingDetector)
    (member : CongressMember) (txs : List StockTransaction)
    (acts : List LegislativeAction) (cas : List CommitteeAssignment)
    (m1 m2 : List (String × List StockPrice)) (now : ℤ)
    (hperm : permutedPerTicker m1 m2)
    (hnd : ∀ e ∈ m1, ((e.2.map StockPrice.price_date).Nodup)) :
    analyzeMemberActivity det member txs acts cas m1 now =
    analyzeMemberActivity det member txs acts cas m2 now := by
  have hpk : ∀ k, List.Perm (dictGet m1 k) (dictGet m2 k) :=
    dictGet_perm_of_permutedPerTicker m1 m2 hperm
  have hnk : ∀ k, ((dictGet m1 k).map StockPrice.price_date).Nodup := by
    intro k
    rcases dictGet_cases m1 k with h | ⟨e, he, hee⟩
    · rw [h]; exact List.nodup_nil
    · rw [hee]; exact hnd e he
  induction txs with
  | nil => rfl
  | cons t rest ih =>
    simp only [analyzeMemberActivity]
    have hp := hpk t.ticker
    have hee := perm_eq_nil_iff _ _ hp
    by_cases he : dictGet m1 t.ticker = []
    · rw [if_pos he, if_pos (hee.mp he)]
      exact ih
    · rw [if_neg he, if_neg (fun hh => he (hee.mpr hh))]
      rw [analyzeTransaction_perm det t member acts cas _ _ hp (hnk t.ticker)]
      cases hm : analyzeTransaction det t member acts cas (dictGet m2 t.ticker) with
      | error e => rfl
      | ok metrics =>
        rw [ih]

/-- First bar (day 0) of the permutation witness. -/
def permBar1 : StockPrice :=
  { ticker := "A", price_date := 0, open_price := 10, close_price := 10,
    high_price := 10, low_price := 10, volume := 100 }

/-- Second bar (day 1) of the permutation witness. -/
def permBar2 : StockPrice :=
  { ticker := "A", price_date := 1, open_price := 12, close_price := 12,
    high_price := 12, low_price := 12, volume := 100 }

/-- Transaction on ticker "A", day 0, for the permutation witness. -/
def permTx : StockTransaction :=
  { transaction_id := "txp", member_id := "S001", ticker := "A",
    company_name := "Acme Corp", transaction_type := "Buy",
    transaction_date := 0, disclosure_date := 5,
    amount_range := "$1,001-$15,000", owner := "Self" }

/-- The price mapping with bars in one order. -/
def permM1 : List (String × List StockPrice) := [("A", [permBar1, permBar2])]

/-- The same mapping with the bars of ticker "A" swapped. -/
def permM2 : List (String × List StockPrice) := [("A", [permBar2, permBar1])]

/-- Witness for C9 at a concrete input: swapping the two bars of ticker
"A" leaves the analyzer output unchanged. -/
theorem c9_witness :
    permutedPerTicker permM1 permM2 ∧
    (∀ e ∈ permM1, ((e.2.map StockPrice.price_date).Nodup)) ∧
    analyzeMemberActivity defaultDetector fixMember [permTx] [] [] permM1 7 =
      analyzeMemberActivity defaultDetector fixMember [permTx] [] [] permM2 7 :=
  ⟨List.Forall₂.cons ⟨rfl, List.Perm.swap permBar2 permBar1 []⟩ List.Forall₂.nil,
   by
     intro e he
     rw [show permM1 = [("A", [permBar1, permBar2])] from rfl, List.mem_singleton] at he
     subst he
     decide,
   c9_bar_order_irrelevant defaultDetector fixMember [permTx] [] [] permM1 permM2 7
     (List.Forall₂.cons ⟨rfl, List.Perm.swap permBar2 permBar1 []⟩ List.Forall₂.nil)
     (by
       intro e he
       rw [show permM1 = [("A", [permBar1, permBar2])] from rfl,
           List.mem_singleton] at he
       subst he
       decide)⟩

end SenateInsight
